import Mathlib

/-!
Verification of the MovieWeb application's catalog / rating-aggregation core
and its AI text-response normalization pipeline, as a shallow embedding.

Sources embedded here:
* `datamanager/sqlite_data_manager.py` — identity resolution
  (`_get_or_create_movie_internal`, `add_movie_globally`), membership ledger
  (`add_movie`, `add_existing_movie_to_user_list`,
  `update_user_rating_for_movie`, `delete_movie_from_user_list`),
  the rating aggregator (`_update_community_rating`), OMDb parsing
  (`_parse_omdb_data_for_movie_fields`) and validation (`_validate_movie_input`).
* `app.py` — AI response cleaning (`_clean_ai_single_movie_title_response`,
  `_clean_ai_movie_list_response`), the single-title interpretation wrapper
  (`get_ai_interpreted_movie_title` / `ask_openrouter_for_movies`), and the
  recommendation route's self-filtering, deduplication, truncation and
  session-history bookkeeping (`get_ai_movie_recommendations_route`).

Python `float` values are modelled as exact rationals (`ℚ`); `round(x, n)` is
modelled as round-half-to-even at `n` decimal digits, which agrees with CPython
on the inputs used in this development.  Strings are ASCII in all examples;
`str.lower`/`str.strip` are modelled on ASCII whitespace and case.
-/

namespace MovieWeb

/-! ## Python string primitives -/

/-- Python whitespace characters recognised by `str.strip()` (ASCII subset). -/
def isPySpace (c : Char) : Bool :=
  c = ' ' || c = '\t' || c = '\n' || c = '\r' || c = '\x0b' || c = '\x0c'

/-- `str.strip()` on a character list. -/
def stripChars (l : List Char) : List Char :=
  ((l.dropWhile isPySpace).reverse.dropWhile isPySpace).reverse

/-- Python `str.strip()`. -/
def pyStrip (s : String) : String :=
  String.mk (stripChars s.toList)

/-- Substring containment on character lists (Python's `needle in hay`). -/
def charsContains (hay needle : List Char) : Bool :=
  match hay with
  | [] => needle.isEmpty
  | _ :: t => needle.isPrefixOf hay || charsContains t needle

/-- Python `needle in hay` for strings. -/
def strContains (hay needle : String) : Bool :=
  charsContains hay.toList needle.toList

/-- ASCII lower-casing of a character (`str.lower()` on the ASCII range). -/
def charLower (c : Char) : Char :=
  if 65 ≤ c.toNat ∧ c.toNat ≤ 90 then Char.ofNat (c.toNat + 32) else c

/-- Python `str.lower()` (ASCII). -/
def pyLower (s : String) : String :=
  String.mk (s.toList.map charLower)

/-- `s.lower().strip()` — the comparison key used throughout the
recommendation route and the session history. -/
def lowerStrip (s : String) : String :=
  pyStrip (pyLower s)

/-- Split a character list on a separator character (Python `str.split(sep)`
for a one-character separator). -/
def splitOnChar (sep : Char) : List Char → List (List Char)
  | [] => [[]]
  | c :: rest =>
      let r := splitOnChar sep rest
      if c = sep then [] :: r
      else
        match r with
        | h :: t => (c :: h) :: t
        | [] => [[c]]

/-! ## Python `round` on exact rationals -/

/-- Floor of a rational as an integer. -/
def rfloor (q : ℚ) : ℤ :=
  Int.fdiv q.num q.den

/-- Round-half-to-even to the nearest integer (CPython `round` semantics on
exact values), phrased on the reduced numerator and denominator: with
`f = ⌊q⌋` and remainder `r = num - f·den` (so `q - f = r / den`), the
fractional part equals 1/2 iff `2·r = den` and is below 1/2 iff `2·r < den`. -/
def roundHalfEven (q : ℚ) : ℤ :=
  let f := rfloor q
  let r := q.num - f * q.den
  if 2 * r = q.den then (if f % 2 = 0 then f else f + 1)
  else if 2 * r < q.den then f else f + 1

/-- Python `round(q, d)` for exact rationals:
`roundHalfEven (q * 10 ^ d) / 10 ^ d`, with the scaling written as
`mkRat (q.num * 10 ^ d) q.den` (see `mkRat_mul_pow`). -/
def pyRound (q : ℚ) (d : ℕ) : ℚ :=
  mkRat (roundHalfEven (mkRat (q.num * 10 ^ d) q.den)) (10 ^ d)

/-! ## `_clean_ai_single_movie_title_response` (app.py)

The function strips the raw text, then either extracts the first quoted
substring (regex `"([^"]+)"`) or strips a fixed ordered list of leading
prefixes case-insensitively followed by surrounding-quote removal, and finally
removes a single trailing period.  Each regex substitution is followed by a
`.strip()`. -/

/-- First match of the regex `"([^"]+)"`: the content between the first pair
of adjacent double quotes enclosing a non-empty quote-free substring.
`s.splitOn "\""` puts the text between quote `i` and quote `i+1` at index
`i + 1`; a valid match needs a closing quote, so the last fragment is
excluded. -/
def firstQuoted (s : String) : Option String :=
  (((splitOnChar '"' s.toList).map String.mk).drop 1).dropLast.find?
    (fun p => p ≠ "")

/-- Remove a case-insensitive literal prefix followed by an optional colon
(regex `^lit:?` with `re.IGNORECASE`); `lit` must be lowercase. -/
def stripLitPrefix (lit : String) (s : String) : String :=
  let ls := s.toList
  if lit.toList.isPrefixOf (ls.map charLower) then
    match ls.drop lit.toList.length with
    | ':' :: r => String.mk r
    | r => String.mk r
  else s

/-- Regex `^\s*-\s*`: leading whitespace, a hyphen, then whitespace.  The
hyphen is mandatory; with no match the string is unchanged. -/
def stripDashPrefix (s : String) : String :=
  let a := s.toList.dropWhile isPySpace
  match a with
  | '-' :: rest => String.mk (rest.dropWhile isPySpace)
  | _ => s

/-- Regex `^\s*\d+[.,\\)]\s*`: leading whitespace, digits, one of `. , \ )`,
then whitespace.  With no match the string is unchanged. -/
def stripNumberPrefix (s : String) : String :=
  let a := s.toList.dropWhile isPySpace
  let digits := a.takeWhile Char.isDigit
  let rest := a.dropWhile Char.isDigit
  if digits.isEmpty then s
  else
    match rest with
    | c :: rest' =>
        if c = '.' || c = ',' || c = '\\' || c = ')' then
          String.mk (rest'.dropWhile isPySpace)
        else s
    | [] => s

/-- The ordered prefix-stripping passes of
`_clean_ai_single_movie_title_response`; each substitution is followed by
`.strip()`. -/
def stripAllPrefixes (s : String) : String :=
  let s := pyStrip (stripLitPrefix "the most probable movie title is" s)
  let s := pyStrip (stripLitPrefix "it is likely" s)
  let s := pyStrip (stripLitPrefix "the movie title is" s)
  let s := pyStrip (stripLitPrefix "the movie is" s)
  let s := pyStrip (stripLitPrefix "movie title" s)
  let s := pyStrip (stripLitPrefix "movie" s)
  let s := pyStrip (stripLitPrefix "title" s)
  let s := pyStrip (stripDashPrefix s)
  pyStrip (stripNumberPrefix s)

/-- Remove one layer of surrounding matching quotes (`"…"` or `'…'`). -/
def stripSurroundingQuotes (s : String) : String :=
  let l := s.toList
  match l with
  | c :: _ =>
      if (c = '"' && l.getLast? = some '"') ||
         (c = '\'' && l.getLast? = some '\'') then
        pyStrip (String.mk (l.drop 1).dropLast)
      else s
  | [] => s

/-- Remove a single trailing period, then strip. -/
def stripTrailingPeriod (s : String) : String :=
  if s.toList.getLast? = some '.' then pyStrip (String.mk s.toList.dropLast)
  else s

/-- `_clean_ai_single_movie_title_response` (app.py lines 1215–1258). -/
def cleanAiSingleMovieTitleResponse (raw : String) : String :=
  let cleaned := pyStrip raw
  let cleaned :=
    match firstQuoted cleaned with
    | some g => pyStrip g
    | none => stripSurroundingQuotes (stripAllPrefixes cleaned)
  stripTrailingPeriod cleaned

/-! ## `_clean_ai_movie_list_response` (app.py lines 1260–1303) -/

/-- The list-prefix regex `^(\d+[,.)]?\s*|[-*•]+\s*)` used on each line:
either digits with an optional one of `, . )` and whitespace, or a run of
bullets with whitespace.  Alternation tries the digit branch first. -/
def stripListPrefix (s : String) : String :=
  let l := s.toList
  let digits := l.takeWhile Char.isDigit
  if ¬ digits.isEmpty then
    let rest := l.dropWhile Char.isDigit
    let rest :=
      match rest with
      | c :: rest' => if c = ',' || c = '.' || c = ')' then rest' else rest
      | [] => []
    String.mk (rest.dropWhile isPySpace)
  else
    let bullets := l.takeWhile (fun c => c = '-' || c = '*' || c = '•')
    if ¬ bullets.isEmpty then
      String.mk ((l.dropWhile (fun c => c = '-' || c = '*' || c = '•')).dropWhile isPySpace)
    else s

/-- `_clean_ai_movie_list_response`: split on newlines, strip each line,
drop empty lines, remove the list prefix, clean each candidate as a single
title, and keep non-empty results. -/
def cleanAiMovieListResponse (raw : String) : List String :=
  (((splitOnChar '\n' raw.toList).map String.mk).map pyStrip).filter
      (fun l => l ≠ "") |>.foldr
    (fun line acc =>
      let candidate := pyStrip (stripListPrefix line)
      if candidate ≠ "" then
        let cleaned := cleanAiSingleMovieTitleResponse candidate
        if cleaned ≠ "" then cleaned :: acc else acc
      else acc) []

/-! ## Single-title interpretation (`ask_openrouter_for_movies` with
`expected_responses = 1`, then `get_ai_interpreted_movie_title`) -/

/-- Internal marker `NO_CLEAR_MOVIE_TITLE_MARKER` (app.py line 79). -/
def NO_CLEAR_MOVIE_TITLE_MARKER : String := "NO_CLEAR_MOVIE_TITLE_FOUND_INTERNAL"

/-- The provider's no-title sentinel phrase requested by the prompt. -/
def NO_TITLE_SENTINEL : String := "NO_CLEAR_MOVIE_TITLE_FOUND"

/-- Response handling of `ask_openrouter_for_movies` for
`expected_responses = 1`, given the raw text content of a successful
transport-level response (app.py lines 1181–1194). -/
def askSingleFromRaw (raw : String) : List String :=
  if raw = "" then [NO_CLEAR_MOVIE_TITLE_MARKER]
  else if raw = NO_TITLE_SENTINEL then [NO_TITLE_SENTINEL]
  else
    let cleaned := cleanAiSingleMovieTitleResponse raw
    if cleaned ≠ "" then [cleaned] else []

/-- Error-phrase test of `get_ai_interpreted_movie_title` (app.py line 128). -/
def containsErrorPhrase (s : String) : Bool :=
  strContains (pyLower s) "error" || strContains (pyLower s) "not configured" ||
    strContains (pyLower s) "timed out"

/-- `get_ai_interpreted_movie_title` applied to the raw text returned by the
provider (app.py lines 113–142): the sentinel and error phrases map to the
internal marker, as does an empty cleaning result. -/
def getAiInterpretedMovieTitle (raw : String) : String :=
  match askSingleFromRaw raw with
  | [] => NO_CLEAR_MOVIE_TITLE_MARKER
  | t :: _ =>
      if t = NO_TITLE_SENTINEL then NO_CLEAR_MOVIE_TITLE_MARKER
      else if containsErrorPhrase t then NO_CLEAR_MOVIE_TITLE_MARKER
      else t

/-! ## Recommendation route post-processing
(`get_ai_movie_recommendations_route`, app.py lines 1094–1138) -/

/-- Self-filter: drop suggestions equal to the queried movie's own title under
`lower().strip()` comparison (app.py lines 1097–1100). -/
def filterSelfTitle (movieTitle : String) (suggestions : List String) : List String :=
  suggestions.filter (fun s => lowerStrip s ≠ lowerStrip movieTitle)

/-- Order-preserving case-insensitive deduplication with a `seen` set of
`lower().strip()` keys (app.py lines 1104–1109). -/
def dedupeByKey (seen : List String) : List String → List String
  | [] => []
  | s :: rest =>
      if seen.contains (lowerStrip s) then dedupeByKey seen rest
      else s :: dedupeByKey (lowerStrip s :: seen) rest

/-- The titles the route displays: self-filter, dedupe, truncate to 5, keep
non-empty strings (app.py lines 1097–1117). -/
def routeRecommendationTitles (movieTitle : String) (suggestions : List String) :
    List String :=
  ((dedupeByKey [] (filterSelfTitle movieTitle suggestions)).take 5).filter
    (fun s => s ≠ "")

/-- The spec's `normalize_list(raw_text, max_items)` read off the code path:
line-level cleaning by `_clean_ai_movie_list_response` followed by the route's
order-preserving case-insensitive deduplication and truncation, with the
truncation bound abstracted (the route instantiates it with 5). -/
def normalizeList (raw : String) (maxItems : ℕ) : List String :=
  (dedupeByKey [] (cleanAiMovieListResponse raw)).take maxItems

/-! ## Discovery session history (app.py lines 1121–1138) -/

/-- `AI_RECOMMENDATION_HISTORY_LENGTH` (app.py line 76). -/
def AI_RECOMMENDATION_HISTORY_LENGTH : ℕ := 20

/-- The appending loop: each shown title is appended only if its
`lower().strip()` key is not already present in the (growing) history. -/
def appendNewTitles (history titles : List String) : List String :=
  titles.foldl
    (fun acc t =>
      if (acc.map lowerStrip).contains (lowerStrip t) then acc else acc ++ [t])
    history

/-- The session-history update of `get_ai_movie_recommendations_route`: append
unseen titles; if at least one was added, evict from the front (`pop(0)`) until
the bound holds and store; otherwise perform no write. -/
def recordShown (history titles : List String) : List String :=
  let upd := appendNewTitles history titles
  if history.length < upd.length then
    upd.drop (upd.length - AI_RECOMMENDATION_HISTORY_LENGTH)
  else history

/-! ## Data model (models.py) -/

/-- `Movie` (models.py lines 30–65).  `community_rating` and
`community_rating_count` are the derived aggregate fields;
`initial_omdb_rating` is the seed rating. -/
structure Movie where
  id : ℕ
  title : String
  director : Option String := none
  writer : Option String := none
  actors : Option String := none
  year : Option ℤ := none
  runtime : Option String := none
  genre : Option String := none
  plot : Option String := none
  language : Option String := none
  country : Option String := none
  awards : Option String := none
  poster_url : Option String := none
  community_rating : Option ℚ := none
  community_rating_count : ℕ := 0
  imdb_id : Option String := none
  metascore : Option String := none
  rated_omdb : Option String := none
  initial_omdb_rating : Option ℚ := none
  deriving DecidableEq, Repr

/-- `UserMovie` (models.py lines 67–84): one row of the membership ledger. -/
structure UserMovie where
  user_id : ℕ
  movie_id : ℕ
  user_rating : Option ℚ := none
  deriving DecidableEq, Repr

/-- The durable store: movie rows, ledger rows (in insertion order, as
returned by `.first()` queries), known user ids, and the next movie primary
key. -/
structure DB where
  movies : List Movie := []
  links : List UserMovie := []
  users : List ℕ := []
  nextMovieId : ℕ := 1
  deriving DecidableEq, Repr

/-- An OMDb-like raw metadata bundle (string-typed, as received). -/
structure OmdbData where
  «Title» : Option String := none
  «Director» : Option String := none
  «Plot» : Option String := none
  «Runtime» : Option String := none
  «Awards» : Option String := none
  «Language» : Option String := none
  «Genre» : Option String := none
  «Actors» : Option String := none
  «Writer» : Option String := none
  «Country» : Option String := none
  «Metascore» : Option String := none
  «Rated» : Option String := none
  imdbID : Option String := none
  «Year» : Option String := none
  «Poster» : Option String := none
  imdbRating : Option String := none
  deriving DecidableEq, Repr

/-- Python truthiness of an optional string (`None` and `""` are falsy). -/
def truthyStr : Option String → Bool
  | none => false
  | some s => s ≠ ""

/-! ## Rating aggregator (`_update_community_rating`, lines 413–462) -/

/-- The non-null personal ratings currently linked to a movie. -/
def ratingsFor (links : List UserMovie) (movieId : ℕ) : List ℚ :=
  links.filterMap (fun l => if l.movie_id = movieId then l.user_rating else none)

/-- Recompute a movie's aggregate fields from its seed rating and the current
ledger: the seed counts as one vote when present; with a zero count the
aggregate is null/0, otherwise the mean rounded to two decimals. -/
def recomputeFields (links : List UserMovie) (m : Movie) : Movie :=
  let rs := ratingsFor links m.id
  let total : ℚ := (m.initial_omdb_rating.getD 0) + rs.sum
  let count : ℕ := (if m.initial_omdb_rating.isSome then 1 else 0) + rs.length
  if 0 < count then
    { m with community_rating := some (pyRound (total / count) 2),
             community_rating_count := count }
  else
    { m with community_rating := none, community_rating_count := 0 }

/-- `_update_community_rating`: fails when the movie id is absent, otherwise
rewrites the movie's aggregate fields from the full current vote set. -/
def updateCommunityRating (db : DB) (movieId : ℕ) : Option DB :=
  if db.movies.any (fun m => m.id = movieId) then
    some { db with
      movies := db.movies.map
        (fun m => if m.id = movieId then recomputeFields db.links m else m) }
  else none

/-! ## Ledger helpers -/

/-- First ledger row for a (user, movie) pair (`UserMovie.query.filter_by(...).first()`). -/
def findLink (links : List UserMovie) (u mid : ℕ) : Option UserMovie :=
  links.find? (fun l => l.user_id = u && l.movie_id = mid)

/-- Set the rating on the first ledger row for the pair. -/
def updateFirstLink (links : List UserMovie) (u mid : ℕ) (r : Option ℚ) :
    List UserMovie :=
  match links with
  | [] => []
  | l :: rest =>
      if l.user_id = u && l.movie_id = mid then { l with user_rating := r } :: rest
      else l :: updateFirstLink rest u mid r

/-- Delete the first ledger row for the pair. -/
def removeFirstLink (links : List UserMovie) (u mid : ℕ) : List UserMovie :=
  match links with
  | [] => []
  | l :: rest =>
      if l.user_id = u && l.movie_id = mid then rest
      else l :: removeFirstLink rest u mid

/-- `_create_or_update_user_movie_link` (lines 182–213): create the row if
absent, else overwrite its rating (writing an equal value is a no-op with the
same resulting state). -/
def createOrUpdateLink (links : List UserMovie) (u mid : ℕ) (r : Option ℚ) :
    List UserMovie :=
  match findLink links u mid with
  | none => links ++ [{ user_id := u, movie_id := mid, user_rating := r }]
  | some _ => updateFirstLink links u mid r

/-! ## `_parse_omdb_data_for_movie_fields` (lines 508–563) -/

/-- Decimal digits to a natural number. -/
def digitsToNat (l : List Char) : ℕ :=
  l.foldl (fun a c => a * 10 + (c.toNat - '0'.toNat)) 0

/-- Python `float(s)` restricted to plain (optionally signed) decimal
literals, the shapes OMDb ratings take; other inputs raise `ValueError`,
i.e. `none`. -/
def parseDecimal? (s : String) : Option ℚ :=
  let l0 := stripChars s.toList
  let sgn : ℤ := if l0.head? = some '-' then -1 else 1
  let l1 := if l0.head? = some '-' ∨ l0.head? = some '+' then l0.tail else l0
  let ip := l1.takeWhile Char.isDigit
  let rest := l1.dropWhile Char.isDigit
  match rest with
  | [] => if ip.isEmpty then none else some (mkRat (sgn * (digitsToNat ip : ℤ)) 1)
  | '.' :: fp =>
      if fp.all Char.isDigit && (!ip.isEmpty || !fp.isEmpty) then
        some (mkRat (sgn * ((digitsToNat ip : ℤ) * 10 ^ fp.length + (digitsToNat fp : ℤ)))
          (10 ^ fp.length))
      else none
  | _ => none

/-- `movie_data.get(key, '').strip() or None`. -/
def stripOrNone (o : Option String) : Option String :=
  let s := pyStrip (o.getD "")
  if s = "" then none else some s

/-- Year parsing: take the first component of a possibly range-formatted
string (en-dash or hyphen separated), strip it, and accept it only if it is
all digits (lines 533–544). -/
def parseOmdbYear (o : Option String) : Option ℤ :=
  let ys := pyStrip (o.getD "")
  if ys = "" then none
  else
    let part := stripChars
      ((splitOnChar '-' ((splitOnChar '–' ys.toList).headD [])).headD [])
    if ¬ part.isEmpty && part.all Char.isDigit then some (digitsToNat part : ℤ)
    else none

/-- Seed-rating parsing (lines 549–561): a present, non-`"N/A"` 0–10 rating is
halved and rounded to one decimal place; kept only if the result lies in
[0, 5]; an unparseable string yields no seed. -/
def parseOmdbSeedRating (o : Option String) : Option ℚ :=
  match o with
  | none => none
  | some raw =>
      if raw = "" || raw = "N/A" then none
      else
        match parseDecimal? raw with
        | none => none
        | some r10 =>
            let r5 := pyRound (mkRat r10.num (r10.den * 2)) 1
            if 0 ≤ r5 ∧ r5 ≤ 5 then some r5 else none

/-- The clean field dictionary produced by `_parse_omdb_data_for_movie_fields`. -/
structure ParsedMovieFields where
  title : String
  director : Option String
  plot : Option String
  runtime : Option String
  awards : Option String
  language : Option String
  genre : Option String
  actors : Option String
  writer : Option String
  country : Option String
  metascore : Option String
  rated_omdb : Option String
  imdb_id : Option String
  year : Option ℤ
  poster_url : Option String
  initial_omdb_rating : Option ℚ
  deriving DecidableEq, Repr

/-- `_parse_omdb_data_for_movie_fields`. -/
def parseOmdbDataForMovieFields (d : OmdbData) : ParsedMovieFields where
  title := pyStrip (d.Title.getD "N/A")
  director := stripOrNone d.Director
  plot := stripOrNone d.Plot
  runtime := stripOrNone d.Runtime
  awards := stripOrNone d.Awards
  language := stripOrNone d.Language
  genre := stripOrNone d.Genre
  actors := stripOrNone d.Actors
  writer := stripOrNone d.Writer
  country := stripOrNone d.Country
  metascore := stripOrNone d.Metascore
  rated_omdb := stripOrNone d.Rated
  imdb_id := d.imdbID
  year := parseOmdbYear d.Year
  poster_url :=
    match d.Poster with
    | some p => if p ≠ "" && p ≠ "N/A" then some p else none
    | none => none
  initial_omdb_rating := parseOmdbSeedRating d.imdbRating

/-- `Movie(**parsed_movie_fields)`: a fresh row with default (null/0)
aggregate fields. -/
def movieFromParsed (id : ℕ) (p : ParsedMovieFields) : Movie where
  id := id
  title := p.title
  director := p.director
  writer := p.writer
  actors := p.actors
  year := p.year
  runtime := p.runtime
  genre := p.genre
  plot := p.plot
  language := p.language
  country := p.country
  awards := p.awards
  poster_url := p.poster_url
  community_rating := none
  community_rating_count := 0
  imdb_id := p.imdb_id
  metascore := p.metascore
  rated_omdb := p.rated_omdb
  initial_omdb_rating := p.initial_omdb_rating

/-! ## Identity resolver (`add_movie_globally`, lines 565–620, and
`_get_or_create_movie_internal`, lines 116–180) -/

/-- `Movie.query.filter_by(imdb_id=...).first()`. -/
def findByImdb (db : DB) (rid : String) : Option Movie :=
  db.movies.find? (fun m => m.imdb_id = some rid)

/-- `add_movie_globally`: refuse a bundle without a truthy `imdbID`; return an
existing record unmodified; otherwise persist a new record parsed from the
bundle and recompute its aggregate.  `none` means the operation failed and the
store was left as given (the method commits or rolls back as a unit). -/
def addMovieGlobally (db : DB) (d : OmdbData) : Option (DB × Movie) :=
  match d.imdbID with
  | none => none
  | some rid =>
      if rid = "" then none
      else
        match findByImdb db rid with
        | some m => some (db, m)
        | none =>
            let p := parseOmdbDataForMovieFields d
            if ¬ truthyStr p.imdb_id then none
            else
              let newM := movieFromParsed db.nextMovieId p
              let db1 : DB := { db with movies := db.movies ++ [newM],
                                        nextMovieId := db.nextMovieId + 1 }
              match updateCommunityRating db1 newM.id with
              | some db2 => some (db2, recomputeFields db1.links newM)
              | none => none

/-- Case-insensitive exact-title plus exact-year lookup
(`func.lower(Movie.title) == func.lower(title), Movie.year == year`). -/
def findByTitleYear (db : DB) (title : String) (year : Option ℤ) : Option Movie :=
  db.movies.find? (fun m => pyLower m.title = pyLower title && m.year = year)

/-- The backfill write: set `imdb_id` on the first record matched by the
title/year lookup, leaving every other field and record alone. -/
def backfillImdbOnFirst (movies : List Movie) (title : String) (year : Option ℤ)
    (eid : Option String) : List Movie :=
  match movies with
  | [] => []
  | m :: rest =>
      if pyLower m.title = pyLower title && m.year = year then
        { m with imdb_id := eid } :: rest
      else m :: backfillImdbOnFirst rest title year eid

/-- `_get_or_create_movie_internal`, in order, first match wins: external-id
lookup returns the record unmodified; title+year lookup backfills a missing
external id; otherwise a supplied bundle is handed to `add_movie_globally`;
with nothing to go on the call fails.  The `Bool` is `was_created`. -/
def getOrCreateMovieInternal (db : DB) (title : String) (year : Option ℤ)
    (imdb_id : Option String) (omdb_data : Option OmdbData) :
    Option (DB × Movie × Bool) :=
  match (if truthyStr imdb_id then findByImdb db (imdb_id.getD "") else none) with
  | some m => some (db, m, false)
  | none =>
      match (if title ≠ "" && year.isSome then findByTitleYear db title year else none) with
      | some m =>
          if truthyStr imdb_id && ¬ truthyStr m.imdb_id then
            some ({ db with movies := backfillImdbOnFirst db.movies title year imdb_id },
                  { m with imdb_id := imdb_id }, false)
          else some (db, m, false)
      | none =>
          match omdb_data with
          | some d => (addMovieGlobally db d).map (fun r => (r.1, r.2, true))
          | none => none

/-! ## Membership ledger operations -/

/-- `_validate_movie_input` (lines 91–114): non-empty title, no future year,
rating (when present) within [0, 5]. -/
def validateMovieInput (currentYear : ℤ) (title : String) (year : Option ℤ)
    (rating : Option ℚ) : Bool :=
  if title = "" then false
  else if (match year with | some y => decide (currentYear < y) | none => false) then false
  else if (match rating with | some r => decide (¬ (0 ≤ r ∧ r ≤ 5)) | none => false) then false
  else true

/-- `update_user_rating_for_movie` (lines 302–337).  The returned flag is the
method's success result; the link write is committed before the aggregate
recomputation, so a failed recomputation leaves the new rating stored. -/
def updateUserRatingForMovie (db : DB) (u mid : ℕ) (r : Option ℚ) : Bool × DB :=
  match findLink db.links u mid with
  | none => (false, db)
  | some _ =>
      if (match r with | some v => decide (¬ (0 ≤ v ∧ v ≤ 5)) | none => false) then (false, db)
      else
        let db1 : DB := { db with links := updateFirstLink db.links u mid r }
        match updateCommunityRating db1 mid with
        | some db2 => (true, db2)
        | none => (false, db1)

/-- `delete_movie_from_user_list` (lines 464–491). -/
def deleteMovieFromUserList (db : DB) (u mid : ℕ) : Bool × DB :=
  match findLink db.links u mid with
  | none => (false, db)
  | some _ =>
      let db1 : DB := { db with links := removeFirstLink db.links u mid }
      match updateCommunityRating db1 mid with
      | some db2 => (true, db2)
      | none => (false, db1)

/-- `add_existing_movie_to_user_list` (lines 370–411): an already-present link
is success-with-no-change; otherwise a rating-less link is created and the
aggregate recomputed. -/
def addExistingMovieToUserList (db : DB) (u mid : ℕ) : Bool × DB :=
  if ¬ db.users.contains u then (false, db)
  else if ¬ db.movies.any (fun m => m.id = mid) then (false, db)
  else
    match findLink db.links u mid with
    | some _ => (true, db)
    | none =>
        let db1 : DB := { db with links := db.links ++ [⟨u, mid, none⟩] }
        match updateCommunityRating db1 mid with
        | some db2 => (true, db2)
        | none => (false, db1)

/-- Digits of the fractional part of a non-negative rational, most significant
first, up to the given fuel. -/
def fracDigits : ℚ → ℕ → List Char
  | _, 0 => []
  | f, k + 1 =>
      if f = 0 then []
      else
        let f10 := f * 10
        let d := rfloor f10
        Char.ofNat ('0'.toNat + d.toNat) :: fracDigits (f10 - (d : ℚ)) k

/-- Python `str(float)` for the terminating decimals that occur here. -/
def pyFloatStr (q : ℚ) : String :=
  let a := |q|
  let n := rfloor a
  let ds := fracDigits (a - (n : ℚ)) 17
  (if q < 0 then "-" else "") ++ toString n ++ "." ++
    (if ds.isEmpty then "0" else String.mk ds)

/-- `add_movie` (lines 215–300): validate, check the user, resolve or create
the movie (building an OMDb-like payload when an external id is supplied),
create or update the ledger link, and recompute the aggregate.  Per lines
283–291 the movie is returned even if the final recomputation fails, the link
commit having already happened. -/
def addMovie (db : DB) (currentYear : ℤ) (u : ℕ) (title : String)
    (director : Option String) (year : Option ℤ) (rating : Option ℚ)
    (poster_url plot runtime awards languages genre actors writer country
     metascore rated : Option String)
    (imdb_id : Option String) (omdbRatingForCommunity : Option ℚ) :
    Option (DB × Movie) :=
  let tc := pyStrip title
  if ¬ validateMovieInput currentYear tc year rating then none
  else if ¬ db.users.contains u then none
  else
    let payload : Option OmdbData :=
      if truthyStr imdb_id then
        some { Title := some tc, Director := director,
               Year := (match year with
                        | some y => if y = 0 then none else some (toString y)
                        | none => none),
               Poster := poster_url, Plot := plot, Runtime := runtime,
               Awards := awards, Language := languages, Genre := genre,
               Actors := actors, Writer := writer, Country := country,
               Metascore := metascore, Rated := rated, imdbID := imdb_id,
               imdbRating := omdbRatingForCommunity.map (fun r => pyFloatStr (r * 2)) }
      else none
    match getOrCreateMovieInternal db tc year imdb_id payload with
    | none => none
    | some (db1, m, _) =>
        let db2 : DB := { db1 with links := createOrUpdateLink db1.links u m.id rating }
        match updateCommunityRating db2 m.id with
        | some db3 => some (db3, recomputeFields db2.links m)
        | none => some (db2, m)

/-! ## The aggregate-consistency invariant (claim C1 infrastructure) -/

/-- A store is consistent when every movie's aggregate fields are a fixed
point of the rating aggregator, i.e. they agree with the seed-plus-personal
vote set currently in the ledger. -/
def consistent (db : DB) : Prop :=
  ∀ m ∈ db.movies, recomputeFields db.links m = m

/-- The vote count the aggregator computes for a movie id with the given seed:
one synthetic vote for the seed when present, plus the non-null personal
ratings. -/
def aggCountF (links : List UserMovie) (id : ℕ) (seed : Option ℚ) : ℕ :=
  (if seed.isSome then 1 else 0) + (ratingsFor links id).length

/-- The aggregate rating the aggregator computes: null at count zero, else the
mean of seed and personal ratings rounded to two decimals. -/
def aggRatingF (links : List UserMovie) (id : ℕ) (seed : Option ℚ) : Option ℚ :=
  if 0 < aggCountF links id seed then
    some (pyRound ((seed.getD 0 + (ratingsFor links id).sum) /
      (aggCountF links id seed : ℚ)) 2)
  else none

/-! ## Example fixtures used by witnesses -/

/-- Decidability of the consistency invariant on concrete stores. -/
instance decConsistent (db : DB) : Decidable (consistent db) :=
  inferInstanceAs (Decidable (∀ m ∈ db.movies, recomputeFields db.links m = m))

/-- A small consistent store: one catalog movie on one user's list, with no
personal rating recorded yet. -/
def dbW : DB where
  movies := [{ id := 1, title := "Test", imdb_id := some "tt0001" }]
  links := [⟨1, 1, none⟩]
  users := [1, 2]
  nextMovieId := 2

/-- A consistent store holding one movie known only by title and year,
without an external id. -/
def dbW2 : DB where
  movies := [{ id := 1, title := "Jaws", year := some 1975 }]
  links := []
  users := [1]
  nextMovieId := 2

/-- The empty store. -/
def dbE : DB where

/-- A metadata bundle carrying an external id and a whitespace-only title. -/
def bundleBlankTitle : OmdbData where
  imdbID := some "tt0000001"
  «Title» := some "   "

/-- A metadata bundle with a title but no external id. -/
def bundleNoId : OmdbData where
  «Title» := some "Jaws"

/-- A metadata bundle whose 0–10 rating is 8.6. -/
def bundle86 : OmdbData where
  imdbID := some "tt0000002"
  «Title» := some "X"
  imdbRating := some "8.6"

/-- Modelled from the spec: rounding "to the nearest half point", i.e.
`⌊2q + 1/2⌋ / 2`, written on numerator and denominator
(`2q + 1/2 = (4·num + den) / (2·den)`).  Used only to compare the spec's
wording against what the code stores. -/
def roundToNearestHalf (q : ℚ) : ℚ :=
  mkRat (rfloor (mkRat (4 * q.num + (q.den : ℤ)) (2 * q.den))) 2

theorem mkRat_mul_pow (q : ℚ) (d : ℕ) :
    (mkRat (q.num * 10 ^ d) q.den : ℚ) = q * 10 ^ d := by
  rw [Rat.mkRat_eq_div]
  push_cast
  rw [mul_div_right_comm, Rat.num_div_den]

theorem mkRat_half (q : ℚ) : (mkRat q.num (q.den * 2) : ℚ) = q / 2 := by
  rw [Rat.mkRat_eq_div]
  push_cast
  rw [div_mul_eq_div_div, Rat.num_div_den]

theorem recomputeFields_overwrite (links : List UserMovie) (m : Movie)
    (a : Option ℚ) (b : ℕ) :
    recomputeFields links
      { m with community_rating := a, community_rating_count := b } =
    recomputeFields links m := rfl

theorem recomputeFields_shape (links : List UserMovie) (m : Movie) :
    ∃ a b, recomputeFields links m =
      { m with community_rating := a, community_rating_count := b } := by
  simp only [recomputeFields]
  split <;> split <;> exact ⟨_, _, rfl⟩

theorem recompute_idem (links : List UserMovie) (m : Movie) :
    recomputeFields links (recomputeFields links m) = recomputeFields links m := by
  obtain ⟨a, b, h⟩ := recomputeFields_shape links m
  rw [h, recomputeFields_overwrite, ← h]

theorem recomputeFields_congr (links links' : List UserMovie) (m : Movie)
    (h : ratingsFor links' m.id = ratingsFor links m.id) :
    recomputeFields links' m = recomputeFields links m := by
  simp only [recomputeFields, h]

theorem ratingsFor_updateFirstLink_ne (links : List UserMovie) (u mid : ℕ)
    (r : Option ℚ) (id : ℕ) (h : id ≠ mid) :
    ratingsFor (updateFirstLink links u mid r) id = ratingsFor links id := by
  induction links with
  | nil => rfl
  | cons l rest ih =>
      simp only [updateFirstLink]
      by_cases hc : (l.user_id = u && l.movie_id = mid) = true
      · have hmid : l.movie_id = mid := by
          have := hc
          simp only [Bool.and_eq_true, decide_eq_true_eq] at this
          exact this.2
        rw [if_pos hc]
        simp [ratingsFor, List.filterMap_cons, hmid, Ne.symm h]
      · rw [if_neg hc]
        simp only [ratingsFor, List.filterMap_cons] at ih ⊢
        cases hfa : (if l.movie_id = id then l.user_rating else none) <;> simp [hfa, ih]

theorem ratingsFor_removeFirstLink_ne (links : List UserMovie) (u mid : ℕ)
    (id : ℕ) (h : id ≠ mid) :
    ratingsFor (removeFirstLink links u mid) id = ratingsFor links id := by
  induction links with
  | nil => rfl
  | cons l rest ih =>
      simp only [removeFirstLink]
      by_cases hc : (l.user_id = u && l.movie_id = mid) = true
      · have hmid : l.movie_id = mid := by
          have := hc
          simp only [Bool.and_eq_true, decide_eq_true_eq] at this
          exact this.2
        rw [if_pos hc]
        simp [ratingsFor, List.filterMap_cons, hmid, Ne.symm h]
      · rw [if_neg hc]
        simp only [ratingsFor, List.filterMap_cons] at ih ⊢
        cases hfa : (if l.movie_id = id then l.user_rating else none) <;> simp [hfa, ih]

theorem ratingsFor_append_single (links : List UserMovie) (l : UserMovie)
    (id : ℕ) (h : l.movie_id ≠ id ∨ l.user_rating = none) :
    ratingsFor (links ++ [l]) id = ratingsFor links id := by
  simp only [ratingsFor, List.filterMap_append, List.filterMap_cons,
    List.filterMap_nil]
  rcases h with h | h
  · simp [h]
  · by_cases hm : l.movie_id = id <;> simp [hm, h]

theorem ratingsFor_createOrUpdateLink_ne (links : List UserMovie) (u mid : ℕ)
    (r : Option ℚ) (id : ℕ) (h : id ≠ mid) :
    ratingsFor (createOrUpdateLink links u mid r) id = ratingsFor links id := by
  unfold createOrUpdateLink
  cases findLink links u mid with
  | none => exact ratingsFor_append_single links _ id (Or.inl (Ne.symm h))
  | some _ => exact ratingsFor_updateFirstLink_ne links u mid r id h

theorem consistent_after_recompute (db : DB) (mid : ℕ) (db' : DB)
    (hold : ∀ m ∈ db.movies, m.id ≠ mid → recomputeFields db.links m = m)
    (hupd : updateCommunityRating db mid = some db') : consistent db' := by
  unfold updateCommunityRating at hupd
  split at hupd
  · obtain rfl : _ = db' := Option.some.inj hupd
    intro m' hm'
    simp only [List.mem_map] at hm'
    obtain ⟨m, hm, rfl⟩ := hm'
    by_cases hid : m.id = mid
    · simp only [if_pos hid]
      exact recompute_idem db.links m
    · simp only [if_neg hid]
      exact hold m hm hid
  · exact absurd hupd (by simp)

theorem consistent_updateUserRating (db : DB) (h : consistent db) (u mid : ℕ)
    (r : Option ℚ) (hs : (updateUserRatingForMovie db u mid r).1 = true) :
    consistent (updateUserRatingForMovie db u mid r).2 := by
  unfold updateUserRatingForMovie at hs ⊢
  cases hfl : findLink db.links u mid with
  | none => simp only [hfl] at hs; cases hs
  | some l =>
      simp only [hfl] at hs ⊢
      cases hv : (match r with
        | some v => decide (¬ (0 ≤ v ∧ v ≤ 5))
        | none => false) with
      | true => rw [if_pos hv] at hs; cases hs
      | false =>
        rw [hv, if_neg Bool.false_ne_true] at hs
        rw [if_neg Bool.false_ne_true]
        cases hupd : updateCommunityRating
            { db with links := updateFirstLink db.links u mid r } mid with
        | none => simp [hupd] at hs
        | some db2 =>
            simp only [hupd]
            refine consistent_after_recompute _ mid db2 ?_ hupd
            intro m hm hid
            exact (recomputeFields_congr db.links (updateFirstLink db.links u mid r) m
              (ratingsFor_updateFirstLink_ne db.links u mid r m.id hid)).trans (h m hm)

theorem consistent_deleteFromUserList (db : DB) (h : consistent db) (u mid : ℕ)
    (hs : (deleteMovieFromUserList db u mid).1 = true) :
    consistent (deleteMovieFromUserList db u mid).2 := by
  unfold deleteMovieFromUserList at hs ⊢
  cases hfl : findLink db.links u mid with
  | none => simp only [hfl] at hs; cases hs
  | some l =>
      simp only [hfl] at hs ⊢
      cases hupd : updateCommunityRating
          { db with links := removeFirstLink db.links u mid } mid with
      | none => simp only [hupd] at hs; cases hs
      | some db2 =>
          simp only [hupd]
          refine consistent_after_recompute _ mid db2 ?_ hupd
          intro m hm hid
          exact (recomputeFields_congr db.links (removeFirstLink db.links u mid) m
            (ratingsFor_removeFirstLink_ne db.links u mid m.id hid)).trans (h m hm)

theorem consistent_addExisting (db : DB) (h : consistent db) (u mid : ℕ)
    (hs : (addExistingMovieToUserList db u mid).1 = true) :
    consistent (addExistingMovieToUserList db u mid).2 := by
  unfold addExistingMovieToUserList at hs ⊢
  by_cases hu : (¬ db.users.contains u = true)
  · rw [if_pos hu] at hs; cases hs
  · rw [if_neg hu] at hs ⊢
    by_cases hm : (¬ db.movies.any (fun m => m.id = mid) = true)
    · rw [if_pos hm] at hs; cases hs
    · rw [if_neg hm] at hs ⊢
      cases hfl : findLink db.links u mid with
      | some l => simp only [hfl]; exact h
      | none =>
          simp only [hfl] at hs ⊢
          cases hupd : updateCommunityRating
              { db with links := db.links ++ [⟨u, mid, none⟩] } mid with
          | none => simp only [hupd] at hs; cases hs
          | some db2 =>
              simp only [hupd]
              refine consistent_after_recompute _ mid db2 ?_ hupd
              intro m hmem hid
              exact (recomputeFields_congr db.links (db.links ++ [⟨u, mid, none⟩]) m
                (ratingsFor_append_single db.links _ m.id
                  (Or.inl (Ne.symm hid)))).trans (h m hmem)

theorem consistent_addMovieGlobally (db : DB) (h : consistent db) (d : OmdbData)
    (db' : DB) (m : Movie) (hs : addMovieGlobally db d = some (db', m)) :
    consistent db' := by
  unfold addMovieGlobally at hs
  cases hid : d.imdbID with
  | none => simp only [hid] at hs; cases hs
  | some rid =>
      simp only [hid] at hs
      by_cases hrid : rid = ""
      · rw [if_pos hrid] at hs; cases hs
      · rw [if_neg hrid] at hs
        cases hex : findByImdb db rid with
        | some mex =>
            simp only [hex] at hs
            obtain ⟨rfl, rfl⟩ := Prod.mk.inj (Option.some.inj hs)
            exact h
        | none =>
            simp only [hex] at hs
            by_cases ht : (¬ truthyStr (parseOmdbDataForMovieFields d).imdb_id = true)
            · rw [if_pos ht] at hs; cases hs
            · rw [if_neg ht] at hs
              cases hupd : updateCommunityRating
                  { db with
                    movies := db.movies ++
                      [movieFromParsed db.nextMovieId (parseOmdbDataForMovieFields d)],
                    nextMovieId := db.nextMovieId + 1 }
                  (movieFromParsed db.nextMovieId (parseOmdbDataForMovieFields d)).id with
              | none => simp only [hupd] at hs; cases hs
              | some db2 =>
                  simp only [hupd] at hs
                  obtain ⟨rfl, rfl⟩ := Prod.mk.inj (Option.some.inj hs)
                  refine consistent_after_recompute _ _ db2 ?_ hupd
                  intro mm hmm hidne
                  simp only [List.mem_append, List.mem_singleton] at hmm
                  rcases hmm with hmm | rfl
                  · exact h mm hmm
                  · exact absurd rfl hidne

theorem updateCommunityRating_eq (db : DB) (mid : ℕ) (db' : DB)
    (h : updateCommunityRating db mid = some db') :
    db' = { db with
        movies := db.movies.map fun m =>
          if m.id = mid then recomputeFields db.links m else m } := by
  unfold updateCommunityRating at h
  split at h
  · exact (Option.some.inj h).symm
  · exact absurd h (by simp)

theorem find?_decomp {α : Type _} {p : α → Bool} {l : List α} {a : α}
    (h : l.find? p = some a) :
    ∃ l₁ l₂, l = l₁ ++ a :: l₂ ∧ (∀ x ∈ l₁, p x = false) ∧ p a = true := by
  induction l with
  | nil => cases h
  | cons b rest ih =>
      cases hb : p b with
      | true =>
          rw [List.find?_cons_of_pos _ hb] at h
          obtain rfl := Option.some.inj h
          exact ⟨[], rest, rfl, by simp, hb⟩
      | false =>
          rw [List.find?_cons_of_neg _ (by rw [hb]; exact Bool.false_ne_true)] at h
          obtain ⟨l₁, l₂, rfl, h1, h2⟩ := ih h
          refine ⟨b :: l₁, l₂, rfl, ?_, h2⟩
          intro x hx
          rcases List.mem_cons.mp hx with rfl | hx
          · exact hb
          · exact h1 x hx

theorem backfill_decomp (t : String) (y : Option ℤ) (e : Option String)
    (l₁ l₂ : List Movie) (a : Movie)
    (h1 : ∀ x ∈ l₁, (pyLower x.title = pyLower t && x.year = y) = false)
    (h2 : (pyLower a.title = pyLower t && a.year = y) = true) :
    backfillImdbOnFirst (l₁ ++ a :: l₂) t y e =
      l₁ ++ { a with imdb_id := e } :: l₂ := by
  induction l₁ with
  | nil =>
      show backfillImdbOnFirst (a :: l₂) t y e = _
      unfold backfillImdbOnFirst
      rw [if_pos h2]
      rfl
  | cons b r ih =>
      have hb := h1 b (List.mem_cons_self b r)
      show backfillImdbOnFirst (b :: (r ++ a :: l₂)) t y e = _
      unfold backfillImdbOnFirst
      rw [if_neg (by rw [hb]; exact Bool.false_ne_true),
        ih (fun x hx => h1 x (List.mem_cons_of_mem b hx))]
      rfl

theorem recomputeFields_eq (links : List UserMovie) (m : Movie) :
    recomputeFields links m =
      { m with community_rating := aggRatingF links m.id m.initial_omdb_rating,
               community_rating_count := aggCountF links m.id m.initial_omdb_rating } := by
  unfold recomputeFields aggRatingF aggCountF
  by_cases hc : 0 < (if m.initial_omdb_rating.isSome then 1 else 0) +
      (ratingsFor links m.id).length
  · rw [if_pos hc, if_pos hc]
  · rw [if_neg hc, if_neg hc]
    have h0 : (if m.initial_omdb_rating.isSome then 1 else 0) +
        (ratingsFor links m.id).length = 0 := by omega
    rw [h0]

theorem recomputeFields_set_imdb (links : List UserMovie) (m : Movie)
    (e : Option String) :
    recomputeFields links { m with imdb_id := e } =
      { recomputeFields links m with imdb_id := e } := by
  rw [recomputeFields_eq, recomputeFields_eq]

/-- `add_movie_globally`: a successful call leaves the store consistent,
never touches the ledger, and the returned movie's id is a stored row's id. -/
theorem addMovieGlobally_spec (db : DB) (h : consistent db) (d : OmdbData)
    (db' : DB) (m : Movie) (hs : addMovieGlobally db d = some (db', m)) :
    consistent db' ∧ db'.links = db.links ∧ ∃ mm ∈ db'.movies, mm.id = m.id := by
  unfold addMovieGlobally at hs
  cases hid : d.imdbID with
  | none => simp only [hid] at hs; cases hs
  | some rid =>
      simp only [hid] at hs
      by_cases hrid : rid = ""
      · rw [if_pos hrid] at hs; cases hs
      · rw [if_neg hrid] at hs
        cases hex : findByImdb db rid with
        | some mex =>
            simp only [hex] at hs
            obtain ⟨rfl, rfl⟩ := Prod.mk.inj (Option.some.inj hs)
            exact ⟨h, rfl, mex, List.mem_of_find?_eq_some hex, rfl⟩
        | none =>
            simp only [hex] at hs
            by_cases ht : (¬ truthyStr (parseOmdbDataForMovieFields d).imdb_id = true)
            · rw [if_pos ht] at hs; cases hs
            · rw [if_neg ht] at hs
              cases hupd : updateCommunityRating
                  { db with
                    movies := db.movies ++
                      [movieFromParsed db.nextMovieId (parseOmdbDataForMovieFields d)],
                    nextMovieId := db.nextMovieId + 1 }
                  (movieFromParsed db.nextMovieId (parseOmdbDataForMovieFields d)).id with
              | none => simp only [hupd] at hs; cases hs
              | some db2 =>
                  simp only [hupd] at hs
                  obtain ⟨rfl, rfl⟩ := Prod.mk.inj (Option.some.inj hs)
                  have hcons : consistent db2 := by
                    refine consistent_after_recompute _ _ db2 ?_ hupd
                    intro mm hmm hidne
                    simp only [List.mem_append, List.mem_singleton] at hmm
                    rcases hmm with hmm | rfl
                    · exact h mm hmm
                    · exact absurd rfl hidne
                  have he := updateCommunityRating_eq _ _ _ hupd
                  subst he
                  refine ⟨hcons, rfl, ?_⟩
                  refine ⟨_, List.mem_map_of_mem _ (List.mem_append_right _
                    (List.mem_singleton_self _)), ?_⟩
                  rw [if_pos rfl]

/-- `_get_or_create_movie_internal`: a successful call leaves the store
consistent, never touches the ledger, and the returned movie's id is a stored
row's id. -/
theorem getOrCreate_spec (db : DB) (h : consistent db) (t : String)
    (y : Option ℤ) (iid : Option String) (od : Option OmdbData)
    (db1 : DB) (m : Movie) (c : Bool)
    (hs : getOrCreateMovieInternal db t y iid od = some (db1, m, c)) :
    consistent db1 ∧ db1.links = db.links ∧ ∃ mm ∈ db1.movies, mm.id = m.id := by
  unfold getOrCreateMovieInternal at hs
  cases h1 : (if truthyStr iid then findByImdb db (iid.getD "") else none) with
  | some mf =>
      simp only [h1] at hs
      obtain ⟨rfl, rfl, rfl⟩ := Prod.mk.inj (Option.some.inj hs) |>.imp id Prod.mk.inj
      have hmem : mf ∈ db.movies := by
        by_cases htr : truthyStr iid = true
        · rw [if_pos htr] at h1; exact List.mem_of_find?_eq_some h1
        · rw [if_neg htr] at h1; cases h1
      exact ⟨h, rfl, mf, hmem, rfl⟩
  | none =>
      simp only [h1] at hs
      cases h2 : (if t ≠ "" && y.isSome then findByTitleYear db t y else none) with
      | some mf =>
          simp only [h2] at hs
          have hfind : findByTitleYear db t y = some mf := by
            by_cases hc : (t ≠ "" && y.isSome) = true
            · rw [if_pos hc] at h2; exact h2
            · rw [if_neg hc] at h2; cases h2
          by_cases hbf : (truthyStr iid && ¬ truthyStr mf.imdb_id) = true
          · rw [if_pos hbf] at hs
            obtain ⟨rfl, rfl, rfl⟩ := Prod.mk.inj (Option.some.inj hs) |>.imp id Prod.mk.inj
            obtain ⟨l₁, l₂, hl, hfail, hpred⟩ := find?_decomp hfind
            have hb : backfillImdbOnFirst db.movies t y iid =
                l₁ ++ { mf with imdb_id := iid } :: l₂ := by
              rw [hl]; exact backfill_decomp t y iid l₁ l₂ mf hfail hpred
            constructor
            · intro mm hmm
              simp only [hb, List.mem_append, List.mem_cons] at hmm
              have hmemdb : ∀ x, x ∈ l₁ ∨ x ∈ l₂ → recomputeFields db.links x = x := by
                intro x hx
                refine h x ?_
                rw [hl]
                rcases hx with hx | hx
                · exact List.mem_append_left _ hx
                · exact List.mem_append_right _ (List.mem_cons_of_mem _ hx)
              rcases hmm with hmm | rfl | hmm
              · exact hmemdb mm (Or.inl hmm)
              · have hmf : recomputeFields db.links mf = mf := by
                  refine h mf ?_
                  rw [hl]; exact List.mem_append_right _ (List.mem_cons_self _ _)
                calc recomputeFields
                      ({ db with movies := backfillImdbOnFirst db.movies t y iid } : DB).links
                      { mf with imdb_id := iid }
                    = { recomputeFields db.links mf with imdb_id := iid } :=
                      recomputeFields_set_imdb db.links mf iid
                  _ = { mf with imdb_id := iid } := by rw [hmf]
              · exact hmemdb mm (Or.inr hmm)
            · refine ⟨rfl, { mf with imdb_id := iid }, ?_, rfl⟩
              simp only [hb, List.mem_append, List.mem_cons]
              exact Or.inr (Or.inl trivial)
          · rw [if_neg hbf] at hs
            obtain ⟨rfl, rfl, rfl⟩ := Prod.mk.inj (Option.some.inj hs) |>.imp id Prod.mk.inj
            exact ⟨h, rfl, mf, List.mem_of_find?_eq_some hfind, rfl⟩
      | none =>
          simp only [h2] at hs
          cases hod : od with
          | none => rw [hod] at hs; cases hs
          | some d =>
              simp only [hod] at hs
              cases hg : addMovieGlobally db d with
              | none => simp only [hg, Option.map_none'] at hs; cases hs
              | some r =>
                  obtain ⟨db', m'⟩ := r
                  simp only [hg, Option.map_some'] at hs
                  obtain ⟨rfl, rfl, rfl⟩ :=
                    Prod.mk.inj (Option.some.inj hs) |>.imp id Prod.mk.inj
                  obtain ⟨hc, hl, hm⟩ := addMovieGlobally_spec db h d db' m' hg
                  exact ⟨hc, hl, hm⟩

/-- The tail of `add_movie` after validation and user lookup, for an arbitrary
payload: resolve or create, create/update the ledger link, recompute. -/
theorem addMovie_tail (db : DB) (h : consistent db) (tc : String) (y : Option ℤ)
    (iid : Option String) (pd : Option OmdbData) (u : ℕ) (r : Option ℚ)
    (db' : DB) (m : Movie)
    (hs : (match getOrCreateMovieInternal db tc y iid pd with
           | none => none
           | some (db1, mm, _) =>
               match updateCommunityRating
                   { db1 with links := createOrUpdateLink db1.links u mm.id r }
                   mm.id with
               | some db3 =>
                   some (db3, recomputeFields
                     ({ db1 with links := createOrUpdateLink db1.links u mm.id r } : DB).links mm)
               | none =>
                   some ({ db1 with links := createOrUpdateLink db1.links u mm.id r }, mm)) =
          some (db', m)) :
    consistent db' := by
  cases hg : getOrCreateMovieInternal db tc y iid pd with
  | none => rw [hg] at hs; cases hs
  | some trip =>
      obtain ⟨db1, mm, c⟩ := trip
      simp only [hg] at hs
      obtain ⟨hc1, hlinks, mm2, hmem, hid⟩ := getOrCreate_spec db h tc y iid pd db1 mm c hg
      cases hupd : updateCommunityRating
          { db1 with links := createOrUpdateLink db1.links u mm.id r } mm.id with
      | none =>
          exfalso
          have hany : ({ db1 with links := createOrUpdateLink db1.links u mm.id r } : DB).movies.any
              (fun x => x.id = mm.id) = true :=
            List.any_eq_true.mpr ⟨mm2, hmem, by simp [hid]⟩
          unfold updateCommunityRating at hupd
          rw [if_pos hany] at hupd
          cases hupd
      | some db3 =>
          simp only [hupd] at hs
          obtain ⟨rfl, rfl⟩ := Prod.mk.inj (Option.some.inj hs)
          refine consistent_after_recompute _ _ db3 ?_ hupd
          intro x hx hxid
          exact (recomputeFields_congr db1.links (createOrUpdateLink db1.links u mm.id r) x
            (ratingsFor_createOrUpdateLink_ne db1.links u mm.id r x.id hxid)).trans (hc1 x hx)

theorem consistent_addMovie (db : DB) (h : consistent db) (cy : ℤ) (u : ℕ)
    (t : String) (dir : Option String) (y : Option ℤ) (r : Option ℚ)
    (p pl rt aw la ge ac wr co ms ra : Option String)
    (iid : Option String) (orc : Option ℚ) (db' : DB) (m : Movie)
    (hs : addMovie db cy u t dir y r p pl rt aw la ge ac wr co ms ra iid orc =
      some (db', m)) :
    consistent db' := by
  unfold addMovie at hs
  by_cases hval : (¬ validateMovieInput cy (pyStrip t) y r = true)
  · rw [if_pos hval] at hs; cases hs
  · rw [if_neg hval] at hs
    by_cases huser : (¬ db.users.contains u = true)
    · rw [if_pos huser] at hs; cases hs
    · rw [if_neg huser] at hs
      exact addMovie_tail db h (pyStrip t) y iid _ u r db' m hs

/-- Claim C1: in a consistent store every movie's `community_rating_count`
equals the number of non-null personal ratings plus one for a present seed
rating (zero count forcing a null rating and zero count), with
`community_rating` the two-decimal-rounded mean of seed and personal ratings;
and every successful membership-ledger mutation — updating a personal rating,
removing a movie from a user's list, adding a movie to a user's list (both by
id and via the full `add_movie` flow), and global creation — preserves
consistency of the whole store. -/
theorem claim_C1_aggregate_invariant (db : DB) (h : consistent db) :
    (∀ m ∈ db.movies,
        m.community_rating_count = aggCountF db.links m.id m.initial_omdb_rating ∧
        m.community_rating = aggRatingF db.links m.id m.initial_omdb_rating ∧
        (aggCountF db.links m.id m.initial_omdb_rating = 0 →
          m.community_rating = none ∧ m.community_rating_count = 0)) ∧
    (∀ u mid r, (updateUserRatingForMovie db u mid r).1 = true →
        consistent (updateUserRatingForMovie db u mid r).2) ∧
    (∀ u mid, (deleteMovieFromUserList db u mid).1 = true →
        consistent (deleteMovieFromUserList db u mid).2) ∧
    (∀ u mid, (addExistingMovieToUserList db u mid).1 = true →
        consistent (addExistingMovieToUserList db u mid).2) ∧
    (∀ d db' m, addMovieGlobally db d = some (db', m) → consistent db') ∧
    (∀ cy u t dir y r p pl rt aw la ge ac wr co ms ra iid orc db' m,
        addMovie db cy u t dir y r p pl rt aw la ge ac wr co ms ra iid orc =
          some (db', m) → consistent db') := by
  refine ⟨?_, fun u mid r => consistent_updateUserRating db h u mid r,
          fun u mid => consistent_deleteFromUserList db h u mid,
          fun u mid => consistent_addExisting db h u mid,
          fun d db' m hs => (addMovieGlobally_spec db h d db' m hs).1,
          fun cy u t dir y r p pl rt aw la ge ac wr co ms ra iid orc db' m hs =>
            consistent_addMovie db h cy u t dir y r p pl rt aw la ge ac wr co ms ra
              iid orc db' m hs⟩
  intro m hm
  have hfix := h m hm
  rw [recomputeFields_eq] at hfix
  have hcrc : aggCountF db.links m.id m.initial_omdb_rating =
      m.community_rating_count := congrArg Movie.community_rating_count hfix
  have hcr : aggRatingF db.links m.id m.initial_omdb_rating =
      m.community_rating := congrArg Movie.community_rating hfix
  refine ⟨hcrc.symm, hcr.symm, fun h0 => ⟨?_, ?_⟩⟩
  · rw [← hcr]
    unfold aggRatingF
    rw [h0]
    simp
  · rw [← hcrc, h0]

/-- Witness for C1: a concrete successful rating update (an explicit clear to
null) on a concrete consistent store leaves the store consistent. -/
theorem claim_C1_witness :
    consistent (updateUserRatingForMovie dbW 1 1 none).2 :=
  (claim_C1_aggregate_invariant dbW (by
    intro m hm
    have hmv : m = { id := 1, title := "Test", imdb_id := some "tt0001" } := by
      simpa [dbW] using hm
    subst hmv
    rfl)).2.1 1 1 none (by rfl)

theorem find?_middle {α : Type _} {p : α → Bool} (l₁ l₂ : List α) (a : α)
    (h1 : ∀ x ∈ l₁, p x = false) (ha : p a = true) :
    (l₁ ++ a :: l₂).find? p = some a := by
  induction l₁ with
  | nil => rw [List.nil_append, List.find?_cons_of_pos _ ha]
  | cons b r ih =>
      rw [List.cons_append, List.find?_cons_of_neg _
        (by rw [h1 b (List.mem_cons_self b r)]; exact Bool.false_ne_true)]
      exact ih (fun x hx => h1 x (List.mem_cons_of_mem b hx))

/-- Claim C2: when a record with the supplied external id already exists, both
the resolver and the global-add operation return that record with
`created = false` and leave the entire store — every record and every metadata
field — exactly as it was. -/
theorem claim_C2_external_id_idempotent (db : DB) (eid : String) (m : Movie)
    (hne : eid ≠ "") (hfound : findByImdb db eid = some m)
    (t : String) (y : Option ℤ) (od : Option OmdbData)
    (d : OmdbData) (hd : d.imdbID = some eid) :
    getOrCreateMovieInternal db t y (some eid) od = some (db, m, false) ∧
    addMovieGlobally db d = some (db, m) := by
  have htr : truthyStr (some eid) = true := by simp [truthyStr, hne]
  constructor
  · unfold getOrCreateMovieInternal
    rw [if_pos htr]
    simp only [Option.getD_some, hfound]
  · unfold addMovieGlobally
    rw [hd]
    simp only [if_neg hne, hfound]

/-- Witness for C2: resolving the already-stored id `tt0001` in the concrete
store returns the stored record unchanged, by both entry points. -/
theorem claim_C2_witness :
    getOrCreateMovieInternal dbW "Test" none (some "tt0001") none =
      some (dbW, { id := 1, title := "Test", imdb_id := some "tt0001" }, false) ∧
    addMovieGlobally dbW { imdbID := some "tt0001" } =
      some (dbW, { id := 1, title := "Test", imdb_id := some "tt0001" }) :=
  claim_C2_external_id_idempotent dbW "tt0001"
    { id := 1, title := "Test", imdb_id := some "tt0001" }
    (by decide) rfl "Test" none none { imdbID := some "tt0001" } rfl

/-- Claim C6: when the resolver finds a record by case-insensitive title and
exact year and the caller supplied an external id the record lacks, the
operation writes exactly that one field of that one record — every other
record and every other field is untouched — returns `created = false`, and
repeating the same call afterwards returns the updated store unchanged. -/
theorem claim_C6_backfill_frame (db : DB) (t : String) (y : ℤ) (eid : String)
    (m : Movie) (od : Option OmdbData) (pre post : List Movie)
    (hne : eid ≠ "") (ht : t ≠ "")
    (hnoimdb : findByImdb db eid = none)
    (hdec : db.movies = pre ++ m :: post)
    (hfail : ∀ x ∈ pre,
      (pyLower x.title = pyLower t && x.year = (some y : Option ℤ)) = false)
    (hpred : (pyLower m.title = pyLower t && m.year = (some y : Option ℤ)) = true)
    (hfalsy : truthyStr m.imdb_id = false) :
    getOrCreateMovieInternal db t (some y) (some eid) od =
      some ({ db with movies := pre ++ { m with imdb_id := some eid } :: post },
            { m with imdb_id := some eid }, false) ∧
    getOrCreateMovieInternal
        { db with movies := pre ++ { m with imdb_id := some eid } :: post }
        t (some y) (some eid) od =
      some ({ db with movies := pre ++ { m with imdb_id := some eid } :: post },
            { m with imdb_id := some eid }, false) := by
  have htr : truthyStr (some eid) = true := by simp [truthyStr, hne]
  have hcond : (decide (t ≠ "") && (some y : Option ℤ).isSome) = true := by
    simp [ht]
  have hfound : findByTitleYear db t (some y) = some m := by
    unfold findByTitleYear
    rw [hdec]
    exact find?_middle pre post m hfail hpred
  constructor
  · unfold getOrCreateMovieInternal
    rw [if_pos htr]
    simp only [Option.getD_some, hnoimdb]
    rw [if_pos hcond]
    simp only [hfound]
    have hbf : (truthyStr (some eid) &&
        decide (¬ truthyStr m.imdb_id = true)) = true := by
      simp [htr, hfalsy]
    rw [if_pos hbf]
    have hb : backfillImdbOnFirst db.movies t (some y) (some eid) =
        pre ++ { m with imdb_id := some eid } :: post := by
      rw [hdec]
      exact backfill_decomp t (some y) (some eid) pre post m hfail hpred
    rw [hb]
  · unfold getOrCreateMovieInternal
    rw [if_pos htr]
    have hfind' : findByImdb
        { db with movies := pre ++ { m with imdb_id := some eid } :: post }
        eid = some { m with imdb_id := some eid } := by
      unfold findByImdb
      refine find?_middle pre post _ ?_ (by simp)
      intro x hx
      have hxdb : x ∈ db.movies := by
        rw [hdec]; exact List.mem_append_left _ hx
      have := List.find?_eq_none.mp hnoimdb x hxdb
      simpa using this
    simp only [Option.getD_some, hfind']

/-- Witness for C6: backfilling `tt0073195` onto the concrete title/year-only
record updates only its external id and is idempotent. -/
theorem claim_C6_witness :
    getOrCreateMovieInternal dbW2 "Jaws" (some 1975) (some "tt0073195") none =
      some ({ dbW2 with movies :=
                [] ++ { id := 1, title := "Jaws", year := some 1975,
                        imdb_id := some "tt0073195" } :: [] },
            { id := 1, title := "Jaws", year := some 1975,
              imdb_id := some "tt0073195" }, false) ∧
    getOrCreateMovieInternal
        { dbW2 with movies :=
            [] ++ { id := 1, title := "Jaws", year := some 1975,
                    imdb_id := some "tt0073195" } :: [] }
        "Jaws" (some 1975) (some "tt0073195") none =
      some ({ dbW2 with movies :=
                [] ++ { id := 1, title := "Jaws", year := some 1975,
                        imdb_id := some "tt0073195" } :: [] },
            { id := 1, title := "Jaws", year := some 1975,
              imdb_id := some "tt0073195" }, false) :=
  claim_C6_backfill_frame dbW2 "Jaws" 1975 "tt0073195"
    { id := 1, title := "Jaws", year := some 1975 } none [] []
    (by decide) (by decide) rfl rfl (by intro x hx; cases hx) (by decide) rfl

/-- Counterexample to claim C3: the bundle rating "8.6" is stored as 4.3
(= 43/10), which is not the nearest half point of 8.6 / 2 = 4.3 (that would be
4.5) and is not a multiple of 0.5.  The code rounds to one decimal place
(`round(rating10 / 2, 1)`), not to the nearest half point. -/
theorem claim_C3_counterexample :
    (parseOmdbDataForMovieFields bundle86).initial_omdb_rating =
      some (mkRat 43 10) ∧
    roundToNearestHalf (mkRat 43 10) = mkRat 9 2 ∧
    (mkRat 43 10 : ℚ) ≠ mkRat 9 2 ∧
    (¬ ∃ k : ℤ, (mkRat 43 10 : ℚ) = mkRat k 2) := by
  refine ⟨by decide, by decide, by decide, ?_⟩
  rintro ⟨k, hk⟩
  rw [show (mkRat 43 10 : ℚ) = 43 / 10 from by rw [Rat.mkRat_eq_div]; norm_num,
      Rat.mkRat_eq_div] at hk
  have h2 : (43 : ℚ) * 2 = k * 10 := by
    field_simp at hk
    linarith
  have h3 : (43 : ℤ) * 2 = k * 10 := by exact_mod_cast h2
  omega

/-- Claim C3 amended: for a bundle whose rating string parses as the rational
`r10`, the stored seed rating is `round(r10 / 2, 1)` — one decimal place,
half-to-even — kept only when it lies in [0, 5]; every stored seed is an
integer multiple of 0.1 in [0, 5] (not necessarily of 0.5). -/
theorem claim_C3_seed_rounding (d : OmdbData) (raw : String) (r10 : ℚ)
    (hraw : d.imdbRating = some raw) (hne : raw ≠ "") (hna : raw ≠ "N/A")
    (hparse : parseDecimal? raw = some r10) :
    (parseOmdbDataForMovieFields d).initial_omdb_rating =
      (if 0 ≤ pyRound (r10 / 2) 1 ∧ pyRound (r10 / 2) 1 ≤ 5
       then some (pyRound (r10 / 2) 1) else none) ∧
    (∀ v, (parseOmdbDataForMovieFields d).initial_omdb_rating = some v →
      (∃ k : ℤ, v = mkRat k 10) ∧ 0 ≤ v ∧ v ≤ 5) := by
  have hbase : (parseOmdbDataForMovieFields d).initial_omdb_rating =
      parseOmdbSeedRating (some raw) := by
    rw [← hraw]
    rfl
  have hmain : parseOmdbSeedRating (some raw) =
      (if 0 ≤ pyRound (r10 / 2) 1 ∧ pyRound (r10 / 2) 1 ≤ 5
       then some (pyRound (r10 / 2) 1) else none) := by
    simp only [parseOmdbSeedRating]
    rw [if_neg (by simp [hne, hna]), hparse]
    dsimp only
    rw [mkRat_half]
  refine ⟨hbase.trans hmain, ?_⟩
  intro v hv
  rw [hbase, hmain] at hv
  by_cases hc : 0 ≤ pyRound (r10 / 2) 1 ∧ pyRound (r10 / 2) 1 ≤ 5
  · rw [if_pos hc] at hv
    obtain rfl := Option.some.inj hv
    exact ⟨⟨roundHalfEven (mkRat ((r10 / 2).num * 10 ^ 1) (r10 / 2).den), rfl⟩,
      hc.1, hc.2⟩
  · rw [if_neg hc] at hv
    cases hv

/-- Witness for the amended C3: the concrete bundle with rating "8.6" stores
seed 4.3, a multiple of 0.1 inside [0, 5]. -/
theorem claim_C3_seed_rounding_witness :
    (parseOmdbDataForMovieFields bundle86).initial_omdb_rating =
      (if 0 ≤ pyRound (mkRat 43 5 / 2) 1 ∧ pyRound (mkRat 43 5 / 2) 1 ≤ 5
       then some (pyRound (mkRat 43 5 / 2) 1) else none) :=
  (claim_C3_seed_rounding bundle86 "8.6" (mkRat 43 5) rfl (by decide) (by decide)
    (by decide)).1

/-- Counterexample to claim C5: with no external id supplied, no title+year
match possible, and a metadata bundle supplied (title "Jaws") that merely
lacks an external id, the resolve/create call fails and persists nothing —
the claim demands a persisted record and `created = true` whenever a bundle
is available. -/
theorem claim_C5_counterexample :
    bundleNoId.Title = some "Jaws" ∧
    getOrCreateMovieInternal dbE "Jaws" none none (some bundleNoId) = none := by
  constructor
  · rfl
  · rfl

theorem map_if_id_of_ne (db : DB) (nid : ℕ) (l : List Movie)
    (h : ∀ mm ∈ l, mm.id ≠ nid) :
    l.map (fun mm => if mm.id = nid then recomputeFields db.links mm else mm) = l := by
  induction l with
  | nil => rfl
  | cons a r ih =>
      simp only [List.map_cons, if_neg (h a (List.mem_cons_self a r)),
        ih (fun mm hm => h mm (List.mem_cons_of_mem a hm))]

/-- Claim C5 amended: when neither the external-id lookup nor the title+year
lookup finds a record, a supplied bundle that carries a non-empty external id
not yet in the store leads to a new record — parsed from the bundle, with its
aggregate recomputed — being appended, with `created = true`; with no bundle
the call fails, and with a bundle lacking an external id it also fails
(contrary to the original claim), persisting nothing either way. -/
theorem claim_C5_create_or_notfound (db : DB) (t : String) (y : Option ℤ)
    (iid : Option String) (d : OmdbData)
    (h1 : (if truthyStr iid = true then findByImdb db (iid.getD "") else none) = none)
    (h2 : (if (decide (t ≠ "") && y.isSome) = true then findByTitleYear db t y
           else none) = none)
    (hfresh : ∀ mm ∈ db.movies, mm.id ≠ db.nextMovieId) :
    (∀ rid, d.imdbID = some rid → rid ≠ "" → findByImdb db rid = none →
      getOrCreateMovieInternal db t y iid (some d) =
        some ({ db with
                  movies := db.movies ++
                    [recomputeFields db.links
                      (movieFromParsed db.nextMovieId (parseOmdbDataForMovieFields d))],
                  nextMovieId := db.nextMovieId + 1 },
              recomputeFields db.links
                (movieFromParsed db.nextMovieId (parseOmdbDataForMovieFields d)),
              true)) ∧
    getOrCreateMovieInternal db t y iid none = none ∧
    (d.imdbID = none → getOrCreateMovieInternal db t y iid (some d) = none) := by
  have hglobal : ∀ rid, d.imdbID = some rid → rid ≠ "" → findByImdb db rid = none →
      addMovieGlobally db d =
        some ({ db with
                  movies := db.movies ++
                    [recomputeFields db.links
                      (movieFromParsed db.nextMovieId (parseOmdbDataForMovieFields d))],
                  nextMovieId := db.nextMovieId + 1 },
              recomputeFields db.links
                (movieFromParsed db.nextMovieId (parseOmdbDataForMovieFields d))) := by
    intro rid hrid hne hfind
    unfold addMovieGlobally
    simp only [hrid]
    rw [if_neg hne]
    simp only [hfind]
    have hp : (parseOmdbDataForMovieFields d).imdb_id = some rid := by
      rw [← hrid]
      rfl
    rw [if_neg (by simp [truthyStr, hp, hne])]
    have hany : (({ db with
        movies := db.movies ++
          [movieFromParsed db.nextMovieId (parseOmdbDataForMovieFields d)],
        nextMovieId := db.nextMovieId + 1 } : DB)).movies.any
          (fun m => m.id =
            (movieFromParsed db.nextMovieId (parseOmdbDataForMovieFields d)).id) = true := by
      refine List.any_eq_true.mpr ⟨_, List.mem_append_right _ (List.mem_singleton_self _), ?_⟩
      simp
    unfold updateCommunityRating
    rw [if_pos hany]
    have hmap : (db.movies ++
        [movieFromParsed db.nextMovieId (parseOmdbDataForMovieFields d)]).map
          (fun mm => if mm.id =
              (movieFromParsed db.nextMovieId (parseOmdbDataForMovieFields d)).id then
            recomputeFields db.links mm else mm) =
        db.movies ++
          [recomputeFields db.links
            (movieFromParsed db.nextMovieId (parseOmdbDataForMovieFields d))] := by
      rw [List.map_append,
        show (movieFromParsed db.nextMovieId (parseOmdbDataForMovieFields d)).id =
          db.nextMovieId from rfl,
        map_if_id_of_ne db db.nextMovieId db.movies hfresh,
        List.map_cons, List.map_nil,
        if_pos (show (movieFromParsed db.nextMovieId
          (parseOmdbDataForMovieFields d)).id = db.nextMovieId from rfl)]
    rw [hmap]
  refine ⟨?_, ?_, ?_⟩
  · intro rid hrid hne hfind
    unfold getOrCreateMovieInternal
    simp only [h1, h2]
    rw [hglobal rid hrid hne hfind]
    rfl
  · unfold getOrCreateMovieInternal
    simp only [h1, h2]
  · intro hnone
    unfold getOrCreateMovieInternal
    simp only [h1, h2]
    unfold addMovieGlobally
    simp only [hnone]
    rfl

/-- Witness for the amended C5: creating from a concrete bundle on the empty
store persists exactly one new record and returns `created = true`. -/
theorem claim_C5_witness :
    getOrCreateMovieInternal dbE "Jaws" none none (some bundleBlankTitle) =
      some ({ dbE with
                movies := dbE.movies ++
                  [recomputeFields dbE.links
                    (movieFromParsed dbE.nextMovieId
                      (parseOmdbDataForMovieFields bundleBlankTitle))],
                nextMovieId := dbE.nextMovieId + 1 },
            recomputeFields dbE.links
              (movieFromParsed dbE.nextMovieId
                (parseOmdbDataForMovieFields bundleBlankTitle)),
            true) :=
  (claim_C5_create_or_notfound dbE "Jaws" none none bundleBlankTitle rfl rfl
    (by intro mm hm; cases hm)).1 "tt0000001" rfl (by decide) rfl

/-- Counterexample to claim C8: `add_movie_globally` performs no title/year
validation — a bundle whose title is whitespace-only (stored title becomes
empty) is persisted successfully, mutating the store, where the claim demands
a failure outcome with no mutation for every mutating call with an empty
title. -/
theorem claim_C8_counterexample :
    (addMovieGlobally dbE bundleBlankTitle).isSome = true ∧
    (addMovieGlobally dbE bundleBlankTitle).map
      (fun r => (r.1.movies.length, r.2.title)) = some (1, "") := by
  constructor
  · rfl
  · rfl

theorem validateMovieInput_empty_title (cy : ℤ) (y : Option ℤ) (r : Option ℚ) :
    validateMovieInput cy "" y r = false := rfl

theorem validateMovieInput_future_year (cy : ℤ) (t : String) (yy : ℤ)
    (hy : cy < yy) (r : Option ℚ) :
    validateMovieInput cy t (some yy) r = false := by
  unfold validateMovieInput
  by_cases ht : t = ""
  · rw [if_pos ht]
  · rw [if_neg ht, if_pos (by simpa using hy)]

theorem validateMovieInput_bad_rating (cy : ℤ) (t : String) (y : Option ℤ)
    (rr : ℚ) (hr : ¬ (0 ≤ rr ∧ rr ≤ 5)) :
    validateMovieInput cy t y (some rr) = false := by
  unfold validateMovieInput
  by_cases ht : t = ""
  · rw [if_pos ht]
  · rw [if_neg ht]
    by_cases hy : (match y with | some yv => decide (cy < yv) | none => false) = true
    · rw [if_pos hy]
    · rw [if_neg hy, if_pos (show (match (some rr : Option ℚ) with
          | some v => decide (¬ (0 ≤ v ∧ v ≤ 5))
          | none => false) = true by
        simp only [decide_eq_true_eq]
        exact hr)]

theorem addMovie_of_invalid (db : DB) (cy : ℤ) (u : ℕ) (t : String)
    (dir : Option String) (y : Option ℤ) (r : Option ℚ)
    (p pl rt aw la ge ac wr co ms ra : Option String)
    (iid : Option String) (orc : Option ℚ)
    (hval : validateMovieInput cy (pyStrip t) y r = false) :
    addMovie db cy u t dir y r p pl rt aw la ge ac wr co ms ra iid orc = none := by
  unfold addMovie
  rw [if_pos (by simp [hval])]

/-- Claim C8 amended: the operations that validate — adding a movie to a
user's list and updating a personal rating — reject an empty (or
whitespace-only) title, a future release year, or a rating outside [0, 5]
before any mutation, returning a failure outcome with the store untouched;
the global-creation path (`add_movie_globally`) performs no such validation
(see the counterexample). -/
theorem claim_C8_invalid_input_rejected (db : DB) (cy : ℤ) (u : ℕ)
    (dir : Option String) (y : Option ℤ) (r : Option ℚ)
    (p pl rt aw la ge ac wr co ms ra : Option String)
    (iid : Option String) (orc : Option ℚ) :
    (∀ t, pyStrip t = "" →
      addMovie db cy u t dir y r p pl rt aw la ge ac wr co ms ra iid orc = none) ∧
    (∀ t yy, cy < yy →
      addMovie db cy u t dir (some yy) r p pl rt aw la ge ac wr co ms ra iid orc =
        none) ∧
    (∀ t rr, ¬ (0 ≤ rr ∧ rr ≤ 5) →
      addMovie db cy u t dir y (some rr) p pl rt aw la ge ac wr co ms ra iid orc =
        none) ∧
    (∀ mid rr, ¬ (0 ≤ rr ∧ rr ≤ 5) →
      updateUserRatingForMovie db u mid (some rr) = (false, db)) := by
  refine ⟨?_, ?_, ?_, ?_⟩
  · intro t ht
    exact addMovie_of_invalid db cy u t dir y r p pl rt aw la ge ac wr co ms ra
      iid orc (by rw [ht]; exact validateMovieInput_empty_title cy y r)
  · intro t yy hy
    exact addMovie_of_invalid db cy u t dir (some yy) r p pl rt aw la ge ac wr co
      ms ra iid orc (validateMovieInput_future_year cy (pyStrip t) yy hy r)
  · intro t rr hr
    exact addMovie_of_invalid db cy u t dir y (some rr) p pl rt aw la ge ac wr co
      ms ra iid orc (validateMovieInput_bad_rating cy (pyStrip t) y rr hr)
  · intro mid rr hr
    unfold updateUserRatingForMovie
    cases hfl : findLink db.links u mid with
    | none => rfl
    | some l =>
        rw [if_pos (show (match (some rr : Option ℚ) with
            | some v => decide (¬ (0 ≤ v ∧ v ≤ 5))
            | none => false) = true by
          simp only [decide_eq_true_eq]
          exact hr)]

/-- Witness for the amended C8: on the concrete store, a whitespace-only
title, the future year 3000, and the rating 6 are all rejected with no
mutation. -/
theorem claim_C8_witness :
    addMovie dbW 2026 1 "   " none none none none none none none none none none
      none none none none none none = none ∧
    addMovie dbW 2026 1 "Test" none (some 3000) none none none none none none
      none none none none none none none none = none ∧
    addMovie dbW 2026 1 "Test" none none (some 6) none none none none none none
      none none none none none none none = none ∧
    updateUserRatingForMovie dbW 1 1 (some 6) = (false, dbW) := by
  have h := claim_C8_invalid_input_rejected dbW 2026 1 none none none none none
    none none none none none none none none none none none
  exact ⟨h.1 "   " (by decide), h.2.1 "Test" 3000 (by decide),
    h.2.2.1 "Test" 6 (by norm_num), h.2.2.2 1 6 (by norm_num)⟩

/-- Claim C9: the single-title pipeline returns the internal failure marker on
the provider's exact no-title sentinel; on input `1. "Jaws"` it returns
`Jaws` (first quoted substring, numbering/quotes/trailing period stripped);
and a cleaned result that is empty or contains a known provider error phrase
("error", "not configured", "timed out", case-insensitively) is returned as
the failure marker, never as a title. -/
theorem claim_C9_single_title_pipeline :
    getAiInterpretedMovieTitle NO_TITLE_SENTINEL = NO_CLEAR_MOVIE_TITLE_MARKER ∧
    getAiInterpretedMovieTitle "1. \"Jaws\"" = "Jaws" ∧
    (∀ raw, raw ≠ NO_TITLE_SENTINEL → cleanAiSingleMovieTitleResponse raw = "" →
      getAiInterpretedMovieTitle raw = NO_CLEAR_MOVIE_TITLE_MARKER) ∧
    (∀ raw, raw ≠ NO_TITLE_SENTINEL →
      containsErrorPhrase (cleanAiSingleMovieTitleResponse raw) = true →
      getAiInterpretedMovieTitle raw = NO_CLEAR_MOVIE_TITLE_MARKER) := by
  refine ⟨by decide, by decide, ?_, ?_⟩
  · intro raw hsent hclean
    unfold getAiInterpretedMovieTitle askSingleFromRaw
    by_cases h0 : raw = ""
    · subst h0; rfl
    · rw [if_neg h0, if_neg hsent, if_neg (by simp [hclean])]
  · intro raw hsent herr
    unfold getAiInterpretedMovieTitle askSingleFromRaw
    by_cases h0 : raw = ""
    · subst h0
      decide
    · rw [if_neg h0, if_neg hsent]
      by_cases hcl : cleanAiSingleMovieTitleResponse raw = ""
      · rw [if_neg (by simp [hcl])]
      · rw [if_pos (by simp [hcl])]
        dsimp only
        by_cases hts : cleanAiSingleMovieTitleResponse raw = NO_TITLE_SENTINEL
        · rw [if_pos hts]
        · rw [if_neg hts, if_pos herr]

/-- Witness for C9: a cleaned response containing the phrase "error" maps to
the failure marker. -/
theorem claim_C9_witness :
    getAiInterpretedMovieTitle "AI API Error: upstream broke" =
      NO_CLEAR_MOVIE_TITLE_MARKER :=
  claim_C9_single_title_pipeline.2.2.2 "AI API Error: upstream broke"
    (by decide) (by decide)

theorem dedupeByKey_sublist (seen : List String) (l : List String) :
    (dedupeByKey seen l).Sublist l := by
  induction l generalizing seen with
  | nil => exact List.Sublist.refl []
  | cons s rest ih =>
      unfold dedupeByKey
      by_cases hc : seen.contains (lowerStrip s) = true
      · rw [if_pos hc]
        exact (ih seen).cons s
      · rw [if_neg hc]
        exact (ih (lowerStrip s :: seen)).cons₂ s

theorem dedupeByKey_spec (seen : List String) (l : List String) :
    (dedupeByKey seen l).Pairwise (fun a b => lowerStrip a ≠ lowerStrip b) ∧
    (∀ x ∈ dedupeByKey seen l, seen.contains (lowerStrip x) = false) := by
  induction l generalizing seen with
  | nil => exact ⟨List.Pairwise.nil, by intro x hx; cases hx⟩
  | cons s rest ih =>
      unfold dedupeByKey
      by_cases hc : seen.contains (lowerStrip s) = true
      · rw [if_pos hc]
        exact ih seen
      · rw [if_neg hc]
        obtain ⟨hp, hm⟩ := ih (lowerStrip s :: seen)
        have hmem : ∀ x ∈ dedupeByKey (lowerStrip s :: seen) rest,
            lowerStrip x ≠ lowerStrip s ∧ seen.contains (lowerStrip x) = false := by
          intro x hx
          have := hm x hx
          simp only [List.contains_cons, Bool.or_eq_false_iff] at this
          refine ⟨?_, this.2⟩
          intro he
          have : (lowerStrip x == lowerStrip s) = false := this.1
          simp [he] at this
        constructor
        · exact List.Pairwise.cons (fun b hb => Ne.symm (hmem b hb).1) hp
        · intro x hx
          rcases List.mem_cons.mp hx with rfl | hx
          · exact Bool.eq_false_iff.mpr hc
          · exact (hmem x hx).2

theorem clean_list_members_nonempty (raw : String) :
    ∀ x ∈ cleanAiMovieListResponse raw, x ≠ "" := by
  unfold cleanAiMovieListResponse
  generalize ((((splitOnChar '\n' raw.toList).map String.mk).map pyStrip).filter
    (fun l => l ≠ "")) = lines
  induction lines with
  | nil => intro x hx; cases hx
  | cons a r ih =>
      intro x hx
      simp only [List.foldr_cons] at hx
      by_cases hcand : pyStrip (stripListPrefix a) ≠ ""
      · rw [if_pos (by simpa using hcand)] at hx
        by_cases hclean :
            cleanAiSingleMovieTitleResponse (pyStrip (stripListPrefix a)) ≠ ""
        · rw [if_pos (by simpa using hclean)] at hx
          rcases List.mem_cons.mp hx with rfl | hx
          · exact hclean
          · exact ih x hx
        · rw [if_neg (by simpa using hclean)] at hx
          exact ih x hx
      · rw [if_neg (by simpa using hcand)] at hx
        exact ih x hx

/-- Claim C4: the list normalizer — line split, per-line list-prefix strip and
single-title cleaning, empty-result discard (`cleanAiMovieListResponse`),
then order-preserving case-insensitive deduplication and truncation as done
by the recommendation route (`normalizeList raw maxItems`) — yields exactly
`["Jaws", "The Shining"]` on the claimed input, never exceeds `maxItems`,
contains no two titles equal up to `lower().strip()`, preserves first-seen
order (it is a sublist of the cleaned line list), and agrees with the
recommendation route's own post-processing whenever the queried title does
not occur among the cleaned suggestions. -/
theorem claim_C4_normalize_list :
    normalizeList "- Jaws\n* Jaws\n1. The Shining" 5 = ["Jaws", "The Shining"] ∧
    cleanAiMovieListResponse "- Jaws\n* Jaws\n1. The Shining" =
      ["Jaws", "Jaws", "The Shining"] ∧
    (∀ raw n, (normalizeList raw n).length ≤ n) ∧
    (∀ raw n, (normalizeList raw n).Pairwise
      (fun a b => lowerStrip a ≠ lowerStrip b)) ∧
    (∀ raw n, (normalizeList raw n).Sublist (cleanAiMovieListResponse raw)) ∧
    (∀ raw t, lowerStrip t ∉ (cleanAiMovieListResponse raw).map lowerStrip →
      routeRecommendationTitles t (cleanAiMovieListResponse raw) =
        normalizeList raw 5) := by
  refine ⟨by decide, by decide, ?_, ?_, ?_, ?_⟩
  · intro raw n
    exact le_trans (List.length_take_le n _) (le_refl n)
  · intro raw n
    exact ((dedupeByKey_spec [] (cleanAiMovieListResponse raw)).1).sublist
      (List.take_sublist n _)
  · intro raw n
    exact (List.take_sublist n _).trans (dedupeByKey_sublist [] _)
  · intro raw t hself
    unfold routeRecommendationTitles normalizeList
    have hfs : filterSelfTitle t (cleanAiMovieListResponse raw) =
        cleanAiMovieListResponse raw := by
      unfold filterSelfTitle
      refine List.filter_eq_self.mpr ?_
      intro a ha
      simp only [decide_eq_true_eq]
      intro he
      exact hself (he ▸ List.mem_map_of_mem lowerStrip ha)
    rw [hfs]
    refine List.filter_eq_self.mpr ?_
    intro a ha
    have hmem : a ∈ cleanAiMovieListResponse raw :=
      ((List.take_sublist 5 _).trans (dedupeByKey_sublist [] _)).mem ha
    simpa using clean_list_members_nonempty raw a hmem

/-- Witness for C4: the route post-processing on the cleaned claimed input,
for a queried title not among the suggestions, equals the normalizer's
output. -/
theorem claim_C4_witness :
    routeRecommendationTitles "Alien"
        (cleanAiMovieListResponse "- Jaws\n* Jaws\n1. The Shining") =
      normalizeList "- Jaws\n* Jaws\n1. The Shining" 5 :=
  claim_C4_normalize_list.2.2.2.2.2 "- Jaws\n* Jaws\n1. The Shining" "Alien"
    (by decide)

/-- Claim C10: every successful response of the AI recommendations route
contains at most 5 titles, no two equal after lowercasing and trimming, and
never the queried movie's own title under that comparison, whatever raw
titles the provider returned. -/
theorem claim_C10_route_recommendations (movieTitle : String)
    (suggestions : List String) :
    (routeRecommendationTitles movieTitle suggestions).length ≤ 5 ∧
    (routeRecommendationTitles movieTitle suggestions).Pairwise
      (fun a b => lowerStrip a ≠ lowerStrip b) ∧
    (∀ x ∈ routeRecommendationTitles movieTitle suggestions,
      lowerStrip x ≠ lowerStrip movieTitle) := by
  refine ⟨?_, ?_, ?_⟩
  · exact le_trans (List.length_filter_le _ _) (List.length_take_le 5 _)
  · exact (((dedupeByKey_spec [] _).1).sublist (List.take_sublist 5 _)).sublist
      (List.filter_sublist _)
  · intro x hx
    have hmem : x ∈ filterSelfTitle movieTitle suggestions :=
      (((List.filter_sublist _).trans (List.take_sublist 5 _)).trans
        (dedupeByKey_sublist [] _)).mem hx
    have := List.of_mem_filter hmem
    simpa using this

theorem appendNewTitles_decomp (ts : List String) (h : List String) :
    ∃ new, appendNewTitles h ts = h ++ new := by
  induction ts generalizing h with
  | nil => exact ⟨[], (List.append_nil h).symm⟩
  | cons t ts ih =>
      unfold appendNewTitles
      rw [List.foldl_cons]
      by_cases hc : ((h.map lowerStrip).contains (lowerStrip t)) = true
      · rw [if_pos hc]
        exact ih h
      · rw [if_neg hc]
        obtain ⟨new, hnew⟩ := ih (h ++ [t])
        refine ⟨[t] ++ new, ?_⟩
        show appendNewTitles (h ++ [t]) ts = h ++ ([t] ++ new)
        rw [hnew, List.append_assoc]

theorem appendNewTitles_nodup (ts : List String) (h : List String)
    (hn : (h.map lowerStrip).Nodup) :
    ((appendNewTitles h ts).map lowerStrip).Nodup := by
  induction ts generalizing h with
  | nil => exact hn
  | cons t ts ih =>
      unfold appendNewTitles
      rw [List.foldl_cons]
      by_cases hc : ((h.map lowerStrip).contains (lowerStrip t)) = true
      · rw [if_pos hc]
        exact ih h hn
      · rw [if_neg hc]
        refine ih (h ++ [t]) ?_
        rw [List.map_append, List.map_singleton]
        refine List.Nodup.append hn (List.nodup_singleton _) ?_
        intro a ha hb
        rcases List.mem_singleton.mp hb with rfl
        have : lowerStrip t ∉ h.map lowerStrip := by simpa using hc
        exact this ha

theorem recordShown_length_le (h ts : List String)
    (hb : h.length ≤ AI_RECOMMENDATION_HISTORY_LENGTH) :
    (recordShown h ts).length ≤ AI_RECOMMENDATION_HISTORY_LENGTH := by
  unfold recordShown
  by_cases hlt : h.length < (appendNewTitles h ts).length
  · rw [if_pos hlt, List.length_drop]
    omega
  · rw [if_neg hlt]
    exact hb

theorem recordShown_nodup (h ts : List String)
    (hn : (h.map lowerStrip).Nodup) :
    ((recordShown h ts).map lowerStrip).Nodup := by
  unfold recordShown
  by_cases hlt : h.length < (appendNewTitles h ts).length
  · rw [if_pos hlt, List.map_drop]
    exact (appendNewTitles_nodup ts h hn).sublist (List.drop_sublist _ _)
  · rw [if_neg hlt]
    exact hn

theorem recordShown_evicts_from_front (h ts : List String) :
    ∃ new k, appendNewTitles h ts = h ++ new ∧
      recordShown h ts = (h ++ new).drop k := by
  obtain ⟨new, hnew⟩ := appendNewTitles_decomp ts h
  unfold recordShown
  by_cases hlt : h.length < (appendNewTitles h ts).length
  · rw [if_pos hlt]
    exact ⟨new, (appendNewTitles h ts).length - AI_RECOMMENDATION_HISTORY_LENGTH,
      hnew, by rw [hnew]⟩
  · rw [if_neg hlt]
    have hlen : new.length = 0 := by
      have := hlt
      rw [hnew, List.length_append] at this
      omega
    obtain rfl := List.length_eq_zero.mp hlen
    exact ⟨[], 0, hnew, by simp⟩

/-- Claim C7: the discovery history is invariant-preserving — its length
never exceeds the configured maximum (20) after any record operation from a
bounded state, it never holds two titles equal up to lowercasing and
trimming, insertion appends unseen titles in first-seen order and evicts
from the front when full, and recording `["A","B"]` then `["a","C"]` yields
exclusions `["A","B","C"]`. -/
theorem claim_C7_discovery_history :
    recordShown (recordShown [] ["A", "B"]) ["a", "C"] = ["A", "B", "C"] ∧
    (∀ h ts, h.length ≤ AI_RECOMMENDATION_HISTORY_LENGTH →
      (recordShown h ts).length ≤ AI_RECOMMENDATION_HISTORY_LENGTH) ∧
    (∀ h ts, (h.map lowerStrip).Nodup →
      ((recordShown h ts).map lowerStrip).Nodup) ∧
    (∀ h ts, ∃ new k, appendNewTitles h ts = h ++ new ∧
      recordShown h ts = (h ++ new).drop k) :=
  ⟨by decide, recordShown_length_le, recordShown_nodup,
    recordShown_evicts_from_front⟩

/-- Witness for C7: a concrete record operation respects the bound and keeps
the case-insensitive keys duplicate-free. -/
theorem claim_C7_witness :
    (recordShown ["A"] ["B", "a"]).length ≤ AI_RECOMMENDATION_HISTORY_LENGTH ∧
    ((recordShown ["A"] ["B", "a"]).map lowerStrip).Nodup :=
  ⟨claim_C7_discovery_history.2.1 ["A"] ["B", "a"] (by decide),
   claim_C7_discovery_history.2.2.1 ["A"] ["B", "a"] (by decide)⟩

end MovieWeb
